import Mathlib

/-!
Shallow embedding of the signal-lifecycle and trigger state machine of
`mql5_ai_server_v2_3_claude.py` (the AI-trader server), together with proofs
about the embedded operations.  Prices and pip values are modelled as
rationals, timestamps as natural-number minutes, the two SQLite stores as
lists of records, and the price feed / model call as explicit oracles.
-/

set_option maxHeartbeats 1000000

namespace AITrader

/-! ### Basic vocabulary -/

/-- Trade decision strings `'BUY' | 'SELL' | 'WAIT'`. -/
inductive Decision
  | BUY
  | SELL
  | WAIT
deriving DecidableEq

/-- Signal lifecycle status: `status` column of the `signals` table. -/
inductive SignalStatus
  | ACTIVE
  | CLOSED
deriving DecidableEq

/-- Closed-trade result strings. -/
inductive TradeResult
  | WIN
  | LOSS
  | BREAKEVEN
deriving DecidableEq

/-- Breakeven impact classification values. -/
inductive Impact
  | NO_BREAKEVEN_USED
  | NO_IMPACT
  | SAVED_LOSS
  | MISSED_PROFIT
  | REDUCED_PROFIT
deriving DecidableEq

/-! ### String helpers used by `get_pip_multiplier` (`term in symbol`) -/

/-- Character-list version of `needle` being an initial segment of `hay`. -/
def startsWithChars : List Char → List Char → Bool
  | [], _ => true
  | _ :: _, [] => false
  | a :: as, b :: bs => a == b && startsWithChars as bs

/-- Character-list version of Python `needle in hay` (substring containment). -/
def containsChars (needle : List Char) : List Char → Bool
  | [] => startsWithChars needle []
  | b :: bs => startsWithChars needle (b :: bs) || containsChars needle bs

/-- Python `needle in hay` for strings. -/
def hasSub (hay needle : String) : Bool :=
  containsChars needle.toList hay.toList

/-- Python `str.upper()`. -/
def upperStr (s : String) : String :=
  String.mk (s.toList.map Char.toUpper)

/-- From `get_pip_multiplier` (src lines 490-510): 10 for gold symbols,
100 for JPY pairs, 10000 for standard forex pairs. -/
def get_pip_multiplier (symbol : String) : ℕ :=
  let s := upperStr symbol
  if hasSub s "XAU" || hasSub s "GOLD" || hasSub s "GC" then 10
  else if hasSub s "JPY" || hasSub s "USDJPY" || hasSub s "EURJPY" ||
          hasSub s "GBPJPY" || hasSub s "AUDJPY" then 100
  else 10000

/-! ### Rounding

Python's built-in `round` rounds half to even (banker's rounding) and is
odd-symmetric; `round(x, 1)` is modelled on exact rationals. -/

/-- Round a rational to the nearest integer, ties to even (Python `round`). -/
def rhe (x : ℚ) : ℤ :=
  if Int.fract x < 1/2 then ⌊x⌋
  else if 1/2 < Int.fract x then ⌊x⌋ + 1
  else if ⌊x⌋ % 2 = 0 then ⌊x⌋ else ⌊x⌋ + 1

/-- Python `round(x, 1)`. -/
def round1 (x : ℚ) : ℚ :=
  (rhe (x * 10) : ℚ) / 10

/-- From `calculate_pips` (src lines 617-649): signed pip P&L, rounded to
one decimal; `0` for a non-BUY/SELL decision. -/
def calculate_pips (entry_price exit_price : ℚ) (symbol : String)
    (decision : Decision) : ℚ :=
  let m : ℚ := (get_pip_multiplier symbol : ℚ)
  match decision with
  | .BUY => round1 ((exit_price - entry_price) * m)
  | .SELL => round1 ((entry_price - exit_price) * m)
  | .WAIT => 0

/-! ### Signal store -/

/-- One entry of the `stop_modifications` JSON array appended by
`update_stop_loss_to_breakeven`. -/
structure StopMod where
  timestamp : ℕ
  trigger_price : ℚ
  new_stop_loss : ℚ
deriving DecidableEq

/-- One row of the `signals` table (the columns the lifecycle logic reads
or writes; clock values are minutes). -/
structure Signal where
  id : ℕ
  timestamp : ℕ
  symbol : String
  decision : Decision
  entry : ℚ
  original_stop : ℚ
  current_stop : Option ℚ
  target : ℚ
  status : SignalStatus
  result : Option TradeResult
  exit_price : Option ℚ
  exit_timestamp : Option ℕ
  pnl_pips : Option ℚ
  duration : Option ℕ
  breakeven_triggered : Bool
  breakeven_timestamp : Option ℕ
  stop_modifications : List StopMod
  hyp_exit_price : Option ℚ
  hyp_result : Option TradeResult
  hyp_pnl : Option ℚ
  breakeven_impact : Option Impact
deriving DecidableEq

/-- Data of an accepted BUY/SELL decision handed to `save_signal_to_db`. -/
structure SignalData where
  symbol : String
  decision : Decision
  entry : ℚ
  sl : ℚ
  tp : ℚ
deriving DecidableEq

/-- From `save_signal_to_db` (src lines 651-690): the INSERT sets both
`original_stop_loss` and `current_stop_loss` to the decision's `sl`; the
schema defaults give `status='ACTIVE'`, `breakeven_triggered=0` and NULL
result/exit/hypothetical columns. -/
def save_signal_to_db (now id : ℕ) (d : SignalData) : Signal :=
  { id := id
    timestamp := now
    symbol := d.symbol
    decision := d.decision
    entry := d.entry
    original_stop := d.sl
    current_stop := some d.sl
    target := d.tp
    status := .ACTIVE
    result := none
    exit_price := none
    exit_timestamp := none
    pnl_pips := none
    duration := none
    breakeven_triggered := false
    breakeven_timestamp := none
    stop_modifications := []
    hyp_exit_price := none
    hyp_result := none
    hyp_pnl := none
    breakeven_impact := none }

/-- SQL `COALESCE(current_stop_loss, stop_loss)` (the effective stop). -/
def effSl (s : Signal) : ℚ :=
  s.current_stop.getD s.original_stop

/-- A price oracle stands for `get_current_price`: `none` covers a missing
or stale feed, an absent symbol, and the falsy price `0.0` that the callers
skip with `if not current_price`. -/
abbrev PriceOracle := String → Option ℚ

/-! ### Breakeven engine -/

/-- Row filter of the SELECT in `check_breakeven_conditions` (src lines
806-813): ACTIVE, BUY/SELL, not yet at breakeven. -/
def breakevenEligible (s : Signal) : Bool :=
  s.status = .ACTIVE && (s.decision = .BUY || s.decision = .SELL) &&
    s.breakeven_triggered = false

/-- From `update_stop_loss_to_breakeven` (src lines 851-913), invoked with
`new_stop_loss = entry`: moves the current stop to entry, flags and stamps
the breakeven, and appends a stop-modification record. -/
def update_stop_loss_to_breakeven (now : ℕ) (trigger_price : ℚ)
    (s : Signal) : Signal :=
  { s with
    current_stop := some s.entry
    breakeven_triggered := true
    breakeven_timestamp := some now
    stop_modifications :=
      s.stop_modifications ++ [⟨now, trigger_price, s.entry⟩] }

/-- Per-signal body of the loop in `check_breakeven_conditions` (src lines
818-846): skip if ineligible or the price is unavailable; otherwise for BUY
fire at `entry + (entry - original_sl)`, for SELL at
`entry - (original_sl - entry)`. -/
def breakevenStep (price : PriceOracle) (now : ℕ) (s : Signal) : Signal :=
  if breakevenEligible s then
    match price s.symbol with
    | none => s
    | some p =>
      match s.decision with
      | .BUY =>
          if s.entry + (s.entry - s.original_stop) ≤ p then
            update_stop_loss_to_breakeven now p s
          else s
      | .SELL =>
          if p ≤ s.entry - (s.original_stop - s.entry) then
            update_stop_loss_to_breakeven now p s
          else s
      | .WAIT => s
  else s

/-- `check_breakeven_conditions` over the whole store. -/
def check_breakeven_conditions (price : PriceOracle) (now : ℕ)
    (db : List Signal) : List Signal :=
  db.map (breakevenStep price now)

/-- A sequence of breakeven passes, each with its own price feed and clock. -/
def runBreakevenPasses (passes : List (PriceOracle × ℕ)) (s : Signal) :
    Signal :=
  passes.foldl (fun s pr => breakevenStep pr.1 pr.2 s) s

/-! ### Outcome engine -/

/-- Actual-exit simulation of `check_active_signals` (src lines 972-996),
using the effective (possibly breakeven-adjusted) stop. -/
def actualExit (s : Signal) (p : ℚ) : Option (TradeResult × ℚ) :=
  match s.decision with
  | .BUY =>
      if s.target ≤ p then some (.WIN, s.target)
      else if p ≤ effSl s then
        some ((if effSl s = s.entry then .BREAKEVEN else .LOSS), effSl s)
      else none
  | .SELL =>
      if p ≤ s.target then some (.WIN, s.target)
      else if effSl s ≤ p then
        some ((if effSl s = s.entry then .BREAKEVEN else .LOSS), effSl s)
      else none
  | .WAIT => none

/-- Hypothetical-exit simulation of `check_active_signals` (src lines
981-1004), always against the original stop; a stop hit is always LOSS. -/
def hypExit (s : Signal) (p : ℚ) : Option (TradeResult × ℚ) :=
  match s.decision with
  | .BUY =>
      if s.target ≤ p then some (.WIN, s.target)
      else if p ≤ s.original_stop then some (.LOSS, s.original_stop)
      else none
  | .SELL =>
      if p ≤ s.target then some (.WIN, s.target)
      else if s.original_stop ≤ p then some (.LOSS, s.original_stop)
      else none
  | .WAIT => none

/-- From `calculate_breakeven_impact` (src lines 915-933). -/
def calculate_breakeven_impact (actual_result : TradeResult)
    (hypothetical_result : Option TradeResult) (actual_pnl hypothetical_pnl : ℚ)
    (breakeven_used : Bool) : Impact :=
  if breakeven_used = false then .NO_BREAKEVEN_USED
  else
    match hypothetical_result with
    | none => .NO_IMPACT
    | some h =>
        if actual_result = .BREAKEVEN ∧ h = .LOSS then .SAVED_LOSS
        else if actual_result = .BREAKEVEN ∧ h = .WIN then .MISSED_PROFIT
        else if actual_result = .WIN ∧ h = .WIN then
          (if actual_pnl < hypothetical_pnl then .REDUCED_PROFIT
           else .NO_IMPACT)
        else .NO_IMPACT

/-- Closure write of `update_signal_with_hypothetical` (src lines 725-761)
with the values computed in `check_active_signals` (src lines 1006-1032). -/
def closeWith (now : ℕ) (s : Signal) (r : TradeResult) (xp : ℚ)
    (hyp : Option (TradeResult × ℚ)) : Signal :=
  let apnl := calculate_pips s.entry xp s.symbol s.decision
  let hpnl := match hyp with
    | some (_, hxp) => calculate_pips s.entry hxp s.symbol s.decision
    | none => 0
  { s with
    status := .CLOSED
    result := some r
    exit_price := some xp
    exit_timestamp := some now
    pnl_pips := some apnl
    duration := some (now - s.timestamp)
    hyp_exit_price := hyp.map Prod.snd
    hyp_result := hyp.map Prod.fst
    hyp_pnl := some hpnl
    breakeven_impact :=
      some (calculate_breakeven_impact r (hyp.map Prod.fst) apnl hpnl
        s.breakeven_triggered) }

/-- Per-signal body of the TP/SL loop in `check_active_signals` (src lines
956-1038): ACTIVE BUY/SELL rows only; skip when the price is unavailable;
close when the actual simulation fires. -/
def outcomeStep (price : PriceOracle) (now : ℕ) (s : Signal) : Signal :=
  if s.status = .ACTIVE ∧ (s.decision = .BUY ∨ s.decision = .SELL) then
    match price s.symbol with
    | none => s
    | some p =>
      match actualExit s p with
      | none => s
      | some (r, xp) => closeWith now s r xp (hypExit s p)
  else s

/-- `check_active_signals` (src lines 935-1041): the breakeven pass, then
the TP/SL outcome pass over the updated store. -/
def check_active_signals (price : PriceOracle) (now : ℕ)
    (db : List Signal) : List Signal :=
  (check_breakeven_conditions price now db).map (outcomeStep price now)

/-! ### Admission: daily win cap -/

/-- From `get_daily_net_wins` (src lines 2936-2985): wins minus losses over
the CLOSED signals whose creation timestamp falls in today's range. -/
def get_daily_net_wins (db : List Signal) (todayStart todayEnd : ℕ) : ℤ :=
  let todays := db.filter (fun s =>
    decide (s.status = .CLOSED ∧ todayStart ≤ s.timestamp ∧
      s.timestamp ≤ todayEnd))
  (todays.countP (fun s => decide (s.result = some .WIN)) : ℤ) -
    (todays.countP (fun s => decide (s.result = some .LOSS)) : ℤ)

/-- From `get_risky_active_trades` (src lines 2987-3033): count of ACTIVE
signals not yet at breakeven, across all symbols. -/
def get_risky_active_trades (db : List Signal) : ℕ :=
  (db.filter (fun s =>
    decide (s.status = .ACTIVE ∧ s.breakeven_triggered = false))).length

/-- From `is_daily_analysis_allowed` (src lines 3035-3057): reject only when
the daily limit of 3 net wins is reached and no risky trade remains. -/
def is_daily_analysis_allowed (db : List Signal) (todayStart todayEnd : ℕ) :
    Bool :=
  if 3 ≤ get_daily_net_wins db todayStart todayEnd ∧
      get_risky_active_trades db = 0 then false
  else if 3 ≤ get_daily_net_wins db todayStart todayEnd ∧
      0 < get_risky_active_trades db then true
  else true

/-! ### Trigger evaluator -/

/-- The `type/timeframe/level/direction` payload of a trigger's
`trigger_json`. -/
structure TriggerDef where
  ttype : String
  timeframe : String
  level : ℚ
  direction : String
deriving DecidableEq

/-- From `eval_trigger` (src lines 551-615): condition matching against the
current price (a single-point bar); `none` price means no data, hence not
met.  The returned reason string is abstracted away. -/
def eval_trigger (t : TriggerDef) (symbol : String) (price : Option ℚ) :
    Bool :=
  match price with
  | none => false
  | some p =>
    let slop : ℚ := (1/2) / (get_pip_multiplier symbol : ℚ)
    if t.ttype = "level_break" then
      if t.direction = "above" ∧ t.level < p then true
      else if t.direction = "below" ∧ p < t.level then true
      else false
    else if t.ttype = "retest_hold" then
      if t.direction = "bullish" ∧ |p - t.level| ≤ slop ∧ t.level ≤ p then true
      else if t.direction = "bearish" ∧ |p - t.level| ≤ slop ∧ p ≤ t.level then
        true
      else false
    else if t.ttype = "range_edge_reject" then
      if t.direction = "bullish" ∧ |p - t.level| ≤ slop then true
      else if t.direction = "bearish" ∧ |p - t.level| ≤ slop then true
      else false
    else if t.ttype = "ema_retouch" then
      if |p - t.level| ≤ slop then true else false
    else false

/-! ### Trigger store -/

/-- Lifecycle status of a trigger row. -/
inductive TriggerStatus
  | PENDING
  | CONSUMED
  | EXPIRED
  | SUPERSEDED
  | CLEARED
deriving DecidableEq

/-- One row of the `triggers` table. -/
structure TriggerRow where
  id : ℕ
  created_at : ℕ
  symbol : String
  trigger : TriggerDef
  expiry_ts : ℕ
  status : TriggerStatus
  result : Option String
  fire_reason : Option String
  consumed_at : Option ℕ
deriving DecidableEq

/-- The `next_trigger` dict of a WAIT decision: every key may be absent. -/
structure NextTriggerData where
  ttype : Option String
  timeframe : Option String
  level : Option ℚ
  direction : Option String
  expiry_bars : Option ℕ
deriving DecidableEq

/-- The parts of a parsed model decision that the trigger store reads. -/
structure Analysis where
  decision : Decision
  next_trigger : Option NextTriggerData
deriving DecidableEq

/-- Timeframe-to-minutes mapping of `save_trigger` (src line 292):
`{'M15': 15, 'M30': 30, 'H1': 60, 'H4': 240}.get(timeframe, 15)`. -/
def tf_minutes (tf : String) : ℕ :=
  if tf = "M15" then 15
  else if tf = "M30" then 30
  else if tf = "H1" then 60
  else if tf = "H4" then 240
  else 15

/-- Validation of `next_trigger` in `save_trigger` (src lines 262-273):
type must not be `'none'` and all of type/timeframe/level/direction must be
present. -/
def ntValid (nt : NextTriggerData) : Bool :=
  if nt.ttype = some "none" then false
  else nt.ttype.isSome && nt.timeframe.isSome && nt.level.isSome &&
    nt.direction.isSome

/-- The row INSERTed by `save_trigger` (src lines 289-315): PENDING, with
`expiry_ts = now + tf_minutes(timeframe) * expiry_bars` and an 8-bar
default. -/
def newTriggerRow (now newId : ℕ) (symbol : String) (nt : NextTriggerData) :
    TriggerRow :=
  { id := newId
    created_at := now
    symbol := symbol
    trigger := ⟨nt.ttype.getD "", nt.timeframe.getD "M15", nt.level.getD 0,
      nt.direction.getD ""⟩
    expiry_ts := now + tf_minutes (nt.timeframe.getD "M15") *
      nt.expiry_bars.getD 8
    status := .PENDING
    result := none
    fire_reason := none
    consumed_at := none }

/-- The UPDATE of `save_trigger` (src lines 279-283): every PENDING row of
the symbol becomes SUPERSEDED. -/
def supersedeRow (symbol : String) (now : ℕ) (t : TriggerRow) : TriggerRow :=
  if t.symbol = symbol ∧ t.status = .PENDING then
    { t with status := .SUPERSEDED, consumed_at := some now }
  else t

/-- From `save_trigger` (src lines 250-332): validate, supersede the
symbol's pending triggers, then insert the new PENDING row. -/
def save_trigger (now newId : ℕ) (symbol : String) (a : Analysis)
    (store : List TriggerRow) : List TriggerRow :=
  if a.decision = .WAIT then
    match a.next_trigger with
    | none => store
    | some nt =>
      if ntValid nt then
        (store.map (supersedeRow symbol now)) ++
          [newTriggerRow now newId symbol nt]
      else store
  else store

/-- The UPDATE of `clear_pending_triggers` (src lines 351-355). -/
def clearRow (symbol : String) (now : ℕ) (reason : String) (t : TriggerRow) :
    TriggerRow :=
  if t.symbol = symbol ∧ t.status = .PENDING then
    { t with
      status := .CLEARED
      consumed_at := some now
      fire_reason := some reason }
  else t

/-- From `clear_pending_triggers` (src lines 335-368): all PENDING triggers
of the symbol move to CLEARED. -/
def clear_pending_triggers (now : ℕ) (symbol : String) (reason : String)
    (store : List TriggerRow) : List TriggerRow :=
  store.map (clearRow symbol now reason)

/-- From `mark_trigger_status` (src lines 3110-3134): unconditional UPDATE
of status, consumed_at, result and fire_reason of one row. -/
def mark_trigger_status (now : ℕ) (status : TriggerStatus)
    (result fire_reason : Option String) (t : TriggerRow) : TriggerRow :=
  { t with
    status := status
    consumed_at := some now
    result := result
    fire_reason := fire_reason }

/-- Environment of one watcher cycle: clock, session gates, the price feed
and the re-analysis capability (`re_analyze_with_trigger`, src lines
3184-3265, abstracted to the decision string of its parsed response, or
`none` when the call or the parse fails). -/
structure WatchEnv where
  now : ℕ
  validTime : Bool
  newsWindow : Bool
  price : PriceOracle
  reanalysis : String → Option String

/-- Per-trigger body of `process_pending_triggers` (src lines 3283-3335):
lazy expiry, session and news gating, condition evaluation, then
re-analysis; a failed re-analysis still CONSUMEs the trigger with result
`'ERROR'`.  The human-readable fire reason is abstracted to `"met"`. -/
def processTrigger (env : WatchEnv) (t : TriggerRow) : TriggerRow :=
  if t.expiry_ts < env.now then
    mark_trigger_status env.now .EXPIRED none none t
  else if env.validTime = false then t
  else if env.newsWindow = true then t
  else if eval_trigger t.trigger t.symbol (env.price t.symbol) = false then t
  else
    match env.reanalysis t.symbol with
    | some d => mark_trigger_status env.now .CONSUMED (some d) (some "met") t
    | none =>
        mark_trigger_status env.now .CONSUMED (some "ERROR") (some "met") t

/-- Per-row effect of one watcher cycle: `get_pending_triggers` selects
only PENDING rows, so non-PENDING rows are untouched. -/
def watchRow (env : WatchEnv) (t : TriggerRow) : TriggerRow :=
  if t.status = .PENDING then processTrigger env t else t

/-- One cycle of `process_pending_triggers` (src lines 3268-3340) over the
store; `mark_trigger_status` updates the selected row by id, which in the
list model is a pointwise update of the PENDING rows. -/
def watchCycle (env : WatchEnv) (store : List TriggerRow) :
    List TriggerRow :=
  store.map (watchRow env)

/-- The operations that mutate the trigger store. -/
inductive StoreOp where
  | save (now newId : ℕ) (symbol : String) (a : Analysis)
  | clear (now : ℕ) (symbol : String) (reason : String)
  | watch (env : WatchEnv)

/-- Apply one store operation. -/
def applyOp : StoreOp → List TriggerRow → List TriggerRow
  | .save now newId symbol a, store => save_trigger now newId symbol a store
  | .clear now symbol reason, store =>
      clear_pending_triggers now symbol reason store
  | .watch env, store => watchCycle env store

/-- Run a sequence of store operations. -/
def runOps (ops : List StoreOp) (store : List TriggerRow) :
    List TriggerRow :=
  ops.foldl (fun s op => applyOp op s) store

/-- Boolean predicate: a PENDING trigger of the given symbol. -/
def pendPred (sym : String) (t : TriggerRow) : Bool :=
  decide (t.symbol = sym ∧ t.status = .PENDING)

/-- Number of PENDING triggers of a symbol. -/
def pendingCount (store : List TriggerRow) (sym : String) : ℕ :=
  store.countP (pendPred sym)

/-! ### Claim-words definitions (for refutations and refinements) -/

/-- Claim C3's classification, written from the claim's words: otherwise-
cases (including a null hypothetical result) collapse to NO_IMPACT. -/
def impactSpecC3 (actual : TradeResult) (hyp : Option TradeResult)
    (apnl hpnl : ℚ) (used : Bool) : Impact :=
  if used = false then .NO_BREAKEVEN_USED
  else if actual = .BREAKEVEN ∧ hyp = some .LOSS then .SAVED_LOSS
  else if actual = .BREAKEVEN ∧ hyp = some .WIN then .MISSED_PROFIT
  else if actual = .WIN ∧ hyp = some .WIN ∧ apnl < hpnl then .REDUCED_PROFIT
  else .NO_IMPACT

/-- Claim C1's hypothetical leg for BUY, written from the claim's words:
the same rules as the actual leg, applied against the original stop
(so a stop hit with `original_stop = entry` would be BREAKEVEN). -/
def claimHypExitBuyC1 (entry origSl tp p : ℚ) : Option (TradeResult × ℚ) :=
  if tp ≤ p then some (.WIN, tp)
  else if p ≤ origSl then
    some ((if origSl = entry then .BREAKEVEN else .LOSS), origSl)
  else none

/-! ### Concrete inputs used by witnesses and counterexamples -/

/-- A price feed quoting 1/2 for every symbol. -/
def priceHalf : PriceOracle := fun _ => some (1/2)

/-- Degenerate but storable BUY signal whose original stop equals its
entry. -/
def cexSignalC1 : Signal := save_signal_to_db 0 1 ⟨"EURUSD", .BUY, 1, 1, 2⟩

/-- Ordinary BUY signal (entry 1, stop 0.9, target 1.2). -/
def witSignalC1 : Signal :=
  save_signal_to_db 0 2 ⟨"EURUSD", .BUY, 1, 9/10, 6/5⟩

/-- A price feed quoting 5/4 for every symbol. -/
def priceHigh : PriceOracle := fun _ => some (5/4)

/-- Storable BUY signal whose stop lies above its entry (validation uses
only absolute distances, so such a signal passes the filters). -/
def cexSignalC2 : Signal := save_signal_to_db 0 3 ⟨"EURUSD", .BUY, 1, 2, 3⟩

/-- A price feed quoting 11/10 for every symbol. -/
def priceEleven : PriceOracle := fun _ => some (11/10)

/-- A closed winning signal created at time 1. -/
def winSignal (i : ℕ) : Signal :=
  { save_signal_to_db 1 i ⟨"EURUSD", .BUY, 1, 9/10, 6/5⟩ with
    status := .CLOSED, result := some .WIN }

/-- Store with three wins today and one risky (active, pre-breakeven)
signal. -/
def dbC4 : List Signal :=
  [winSignal 1, winSignal 2, winSignal 3,
    save_signal_to_db 1 4 ⟨"GBPUSD", .SELL, 2, 21/10, 19/10⟩]

/-- A range-edge-reject trigger whose direction is `above`. -/
def cexTriggerC5 : TriggerDef := ⟨"range_edge_reject", "M15", 1, "above"⟩

/-- A range-edge-reject trigger whose direction is `bullish`. -/
def witTriggerC5 : TriggerDef := ⟨"range_edge_reject", "M15", 1, "bullish"⟩

/-- Watcher environment whose re-analysis call fails. -/
def envC6 : WatchEnv :=
  { now := 10, validTime := true, newsWindow := false,
    price := fun _ => some 1, reanalysis := fun _ => none }

/-- A pending EMA-retouch trigger at level 1. -/
def rowC6 : TriggerRow :=
  { id := 1, created_at := 0, symbol := "EURUSD",
    trigger := ⟨"ema_retouch", "M15", 1, "bullish"⟩, expiry_ts := 100,
    status := .PENDING, result := none, fire_reason := none,
    consumed_at := none }

/-- A complete next_trigger payload. -/
def ntC8 : NextTriggerData :=
  ⟨some "level_break", some "M15", some 1, some "above", some 8⟩

/-- A WAIT analysis carrying a complete next_trigger. -/
def analysisC8 : Analysis := { decision := .WAIT, next_trigger := some ntC8 }

/-- A trigger row already in a terminal state. -/
def rowDoneC8 : TriggerRow :=
  { id := 3, created_at := 0, symbol := "EURUSD",
    trigger := ⟨"level_break", "M15", 1, "above"⟩, expiry_ts := 50,
    status := .CONSUMED, result := some "WAIT", fire_reason := some "met",
    consumed_at := some 20 }

/-- Two consecutive saves for the same symbol. -/
def opsC8 : List StoreOp :=
  [.save 0 1 "EURUSD" analysisC8, .save 5 2 "EURUSD" analysisC8]

/-- A WAIT analysis whose next_trigger omits expiry_bars and uses a
timeframe outside the mapping. -/
def analysisC10 : Analysis :=
  { decision := .WAIT,
    next_trigger := some ⟨some "ema_retouch", some "H2", some 1,
      some "bullish", none⟩ }

/-! ## Theorems -/

theorem rhe_neg (x : ℚ) : rhe (-x) = - rhe x := by
  by_cases h0 : Int.fract x = 0
  · obtain ⟨n, rfl⟩ : ∃ n : ℤ, x = (n : ℚ) := by
      refine ⟨⌊x⌋, ?_⟩
      have h := Int.floor_add_fract x
      rw [h0, add_zero] at h
      exact h.symm
    have h1 : (-(n : ℚ)) = ((-n : ℤ) : ℚ) := by push_cast; ring
    rw [h1]
    simp only [rhe, Int.fract_intCast, Int.floor_intCast]
    norm_num
  · have h1 : Int.fract (-x) = 1 - Int.fract x := Int.fract_neg h0
    have hpos : (0 : ℚ) < Int.fract x :=
      lt_of_le_of_ne (Int.fract_nonneg x) (Ne.symm h0)
    have hlt1 : Int.fract x < 1 := Int.fract_lt_one x
    have hfl : (⌊x⌋ : ℚ) < x := by
      have h := Int.floor_add_fract x
      linarith
    have hceil : ⌈x⌉ = ⌊x⌋ + 1 := by
      have h2 : ⌈x⌉ ≤ ⌊x⌋ + 1 := by
        apply Int.ceil_le.mpr
        push_cast
        linarith [Int.lt_floor_add_one x]
      have h3 : ⌊x⌋ < ⌈x⌉ := by
        have h4 := Int.le_ceil x
        have h5 : (⌊x⌋ : ℚ) < (⌈x⌉ : ℚ) := lt_of_lt_of_le hfl h4
        exact_mod_cast h5
      omega
    have hfn : ⌊-x⌋ = -⌊x⌋ - 1 := by
      rw [Int.floor_neg, hceil]; ring
    unfold rhe
    rw [h1, hfn]
    rcases lt_trichotomy (Int.fract x) (1/2) with h | h | h
    · have c1 : ¬ (1 - Int.fract x < 1/2) := by linarith
      have c2 : (1:ℚ)/2 < 1 - Int.fract x := by linarith
      simp only [if_pos h, if_neg c1, if_pos c2]
      ring
    · have c1 : ¬ (1 - Int.fract x < 1/2) := by linarith
      have c2 : ¬ ((1:ℚ)/2 < 1 - Int.fract x) := by linarith
      have c3 : ¬ (Int.fract x < 1/2) := by linarith
      have c4 : ¬ ((1:ℚ)/2 < Int.fract x) := by linarith
      simp only [if_neg c1, if_neg c2, if_neg c3, if_neg c4]
      by_cases hp : ⌊x⌋ % 2 = 0
      · have hp2 : ¬ ((-⌊x⌋ - 1) % 2 = 0) := by omega
        simp only [if_pos hp, if_neg hp2]
        ring
      · have hp2 : (-⌊x⌋ - 1) % 2 = 0 := by omega
        simp only [if_neg hp, if_pos hp2]
        ring
    · have c1 : 1 - Int.fract x < 1/2 := by linarith
      have c3 : ¬ (Int.fract x < 1/2) := by linarith
      simp only [if_pos c1, if_neg c3, if_pos h]
      ring

theorem round1_neg (x : ℚ) : round1 (-x) = - round1 x := by
  unfold round1
  rw [show (-x * 10) = -(x * 10) by ring, rhe_neg]
  push_cast
  ring

/-- C7: for every entry price, exit price and symbol,
`pips(entry, exit, symbol, BUY) = -pips(entry, exit, symbol, SELL)`:
the pip computation (price difference times the symbol-keyed multiplier,
rounded to one decimal) is antisymmetric in the trade direction. -/
theorem c7_pips_antisymmetry (entry_price exit_price : ℚ) (symbol : String) :
    calculate_pips entry_price exit_price symbol .BUY =
      - calculate_pips entry_price exit_price symbol .SELL := by
  unfold calculate_pips
  simp only
  rw [show (entry_price - exit_price) * ((get_pip_multiplier symbol : ℕ) : ℚ) =
      -((exit_price - entry_price) * ((get_pip_multiplier symbol : ℕ) : ℚ)) by ring,
    round1_neg, neg_neg]

/-- C3: for every combination of actual result, hypothetical result, pnl
pair and breakeven-used flag, `calculate_breakeven_impact` returns exactly
the claimed classification: NO_BREAKEVEN_USED when breakeven was not
triggered; SAVED_LOSS for BREAKEVEN/LOSS; MISSED_PROFIT for BREAKEVEN/WIN;
REDUCED_PROFIT for WIN/WIN with smaller actual pnl; NO_IMPACT in every
other case, including a null hypothetical result. -/
theorem c3_impact_classification (a : TradeResult) (h : Option TradeResult)
    (apnl hpnl : ℚ) (used : Bool) :
    calculate_breakeven_impact a h apnl hpnl used =
      impactSpecC3 a h apnl hpnl used := by
  unfold calculate_breakeven_impact impactSpecC3
  cases used with
  | false => simp
  | true =>
    cases h with
    | none => cases a <;> simp
    | some hr => cases a <;> cases hr <;> simp

theorem breakevenStep_frame (price : PriceOracle) (now : ℕ) (s : Signal) :
    (breakevenStep price now s).entry = s.entry ∧
      (breakevenStep price now s).original_stop = s.original_stop ∧
      (breakevenStep price now s).target = s.target := by
  unfold breakevenStep update_stop_loss_to_breakeven
  repeat' split
  all_goals exact ⟨rfl, rfl, rfl⟩

theorem breakevenStep_skip (price : PriceOracle) (now : ℕ) (s : Signal)
    (h : s.breakeven_triggered = true) : breakevenStep price now s = s := by
  unfold breakevenStep breakevenEligible
  simp [h]

theorem breakevenStep_inv (price : PriceOracle) (now : ℕ) (s : Signal)
    (h : s.breakeven_triggered = true → s.current_stop = some s.entry) :
    (breakevenStep price now s).breakeven_triggered = true →
      (breakevenStep price now s).current_stop = some s.entry := by
  by_cases hb : s.breakeven_triggered = true
  · rw [breakevenStep_skip price now s hb]
    exact h
  · unfold breakevenStep update_stop_loss_to_breakeven
    repeat' split
    all_goals simp_all

theorem runBreakevenPasses_inv (passes : List (PriceOracle × ℕ))
    (s : Signal)
    (h : s.breakeven_triggered = true → s.current_stop = some s.entry) :
    (runBreakevenPasses passes s).entry = s.entry ∧
      (runBreakevenPasses passes s).original_stop = s.original_stop ∧
      (runBreakevenPasses passes s).target = s.target ∧
      ((runBreakevenPasses passes s).breakeven_triggered = true →
        (runBreakevenPasses passes s).current_stop = some s.entry) := by
  induction passes generalizing s with
  | nil => exact ⟨rfl, rfl, rfl, h⟩
  | cons pr rest ih =>
    have hframe := breakevenStep_frame pr.1 pr.2 s
    have hinv := breakevenStep_inv pr.1 pr.2 s h
    have hrec := ih (breakevenStep pr.1 pr.2 s)
      (by rw [hframe.1]; exact hinv)
    have hrun : runBreakevenPasses (pr :: rest) s =
        runBreakevenPasses rest (breakevenStep pr.1 pr.2 s) := rfl
    rw [hrun]
    refine ⟨?_, ?_, ?_, ?_⟩
    · rw [hrec.1, hframe.1]
    · rw [hrec.2.1, hframe.2.1]
    · rw [hrec.2.2.1, hframe.2.2]
    · intro ht
      have := hrec.2.2.2 ht
      rw [hframe.1] at this
      exact this

/-- C9: creating a signal with stop S initializes
`original_stop = current_stop = S`, and across any sequence of breakeven
passes the original stop, entry and target never change, while a signal
whose breakeven has triggered carries `current_stop = entry`. -/
theorem c9_original_stop_immutable (now id : ℕ) (d : SignalData)
    (passes : List (PriceOracle × ℕ)) :
    (save_signal_to_db now id d).original_stop = d.sl ∧
      (save_signal_to_db now id d).current_stop = some d.sl ∧
      (runBreakevenPasses passes (save_signal_to_db now id d)).original_stop
        = d.sl ∧
      (runBreakevenPasses passes (save_signal_to_db now id d)).entry
        = d.entry ∧
      (runBreakevenPasses passes (save_signal_to_db now id d)).target
        = d.tp ∧
      ((runBreakevenPasses passes
          (save_signal_to_db now id d)).breakeven_triggered = true →
        (runBreakevenPasses passes (save_signal_to_db now id d)).current_stop
          = some d.entry) := by
  have h := runBreakevenPasses_inv passes (save_signal_to_db now id d)
    (by intro hcon; simp [save_signal_to_db] at hcon)
  exact ⟨rfl, rfl, h.2.1, h.1, h.2.2.1, h.2.2.2⟩

/-- Witness for C9: a pass whose price reaches the 1:1 level fires
breakeven on the concrete BUY signal and leaves the plan fields intact. -/
theorem c9_original_stop_immutable_holds :
    (runBreakevenPasses [(priceEleven, 5)]
        (save_signal_to_db 0 2 ⟨"EURUSD", .BUY, 1, 9/10, 6/5⟩)).current_stop
      = some 1 := by
  have h := c9_original_stop_immutable 0 2 ⟨"EURUSD", .BUY, 1, 9/10, 6/5⟩
    [(priceEleven, 5)]
  refine h.2.2.2.2.2 ?_
  norm_num [runBreakevenPasses, breakevenStep, breakevenEligible,
    save_signal_to_db, priceEleven, update_stop_loss_to_breakeven]

/-- C2 (amended): for an ACTIVE, not-yet-breakeven signal with an available
price, and a stop on the losing side of entry (BUY: stop below entry,
SELL: stop above), the breakeven pass fires exactly when price reaches
`entry + |entry - original_stop|` for BUY (mirrored for SELL), setting
`current_stop = entry`, flagging and stamping the breakeven and appending a
stop-modification record; and a signal already at breakeven is never
re-evaluated.  (The code uses the signed risk distance, so without the
stop-side hypothesis the trigger price is `entry + (entry - original_stop)`,
not `entry + |entry - original_stop|`.) -/
theorem c2_breakeven_rules (price : PriceOracle) (now : ℕ) (s : Signal)
    (p : ℚ) (hst : s.status = .ACTIVE) (hbe : s.breakeven_triggered = false)
    (hp : price s.symbol = some p) :
    (s.decision = .BUY → s.original_stop ≤ s.entry →
      ((s.entry + |s.entry - s.original_stop| ≤ p →
          (breakevenStep price now s).current_stop = some s.entry ∧
          (breakevenStep price now s).breakeven_triggered = true ∧
          (breakevenStep price now s).breakeven_timestamp = some now ∧
          (breakevenStep price now s).stop_modifications =
            s.stop_modifications ++ [⟨now, p, s.entry⟩]) ∧
        (p < s.entry + |s.entry - s.original_stop| →
          breakevenStep price now s = s))) ∧
    (s.decision = .SELL → s.entry ≤ s.original_stop →
      ((p ≤ s.entry - |s.entry - s.original_stop| →
          (breakevenStep price now s).current_stop = some s.entry ∧
          (breakevenStep price now s).breakeven_triggered = true ∧
          (breakevenStep price now s).breakeven_timestamp = some now ∧
          (breakevenStep price now s).stop_modifications =
            s.stop_modifications ++ [⟨now, p, s.entry⟩]) ∧
        (s.entry - |s.entry - s.original_stop| < p →
          breakevenStep price now s = s))) ∧
    (∀ s2 : Signal, s2.breakeven_triggered = true →
      breakevenStep price now s2 = s2) := by
  refine ⟨?_, ?_, fun s2 h2 => breakevenStep_skip price now s2 h2⟩
  · intro hd hsl
    have habs : |s.entry - s.original_stop| = s.entry - s.original_stop :=
      abs_of_nonneg (by linarith)
    have helig : breakevenEligible s = true := by
      simp [breakevenEligible, hst, hbe, hd]
    constructor
    · intro htr
      rw [habs] at htr
      simp [breakevenStep, helig, hp, hd, if_pos htr,
        update_stop_loss_to_breakeven]
    · intro htr
      rw [habs] at htr
      have hne : ¬ (s.entry + (s.entry - s.original_stop) ≤ p) := by linarith
      simp [breakevenStep, helig, hp, hd, if_neg hne]
  · intro hd hsl
    have habs : |s.entry - s.original_stop| = s.original_stop - s.entry := by
      rw [abs_sub_comm]
      exact abs_of_nonneg (by linarith)
    have helig : breakevenEligible s = true := by
      simp [breakevenEligible, hst, hbe, hd]
    constructor
    · intro htr
      rw [habs] at htr
      simp [breakevenStep, helig, hp, hd, if_pos htr,
        update_stop_loss_to_breakeven]
    · intro htr
      rw [habs] at htr
      have hne : ¬ (p ≤ s.entry - (s.original_stop - s.entry)) := by linarith
      simp [breakevenStep, helig, hp, hd, if_neg hne]

/-- Witness for C2: on a BUY at entry 1 with stop 9/10, the price 11/10
reaches `entry + |entry - original_stop|` and the pass fires breakeven. -/
theorem c2_breakeven_rules_holds :
    Signal.breakeven_triggered (breakevenStep priceEleven 5
      (save_signal_to_db 0 9 ⟨"EURUSD", .BUY, 1, 9/10, 6/5⟩)) = true := by
  have h := c2_breakeven_rules priceEleven 5
    (save_signal_to_db 0 9 ⟨"EURUSD", .BUY, 1, 9/10, 6/5⟩) (11/10)
    rfl rfl rfl
  exact ((h.1 rfl (by norm_num [save_signal_to_db])).1
    (by norm_num [save_signal_to_db, abs_of_nonneg])).2.1

/-- Counterexample to C2 as stated: for a (storable) BUY signal whose stop
sits above its entry, the claimed trigger price `entry + |entry -
original_stop|` has not been reached by the price 1/2, yet the pass fires
breakeven, because the code uses the signed distance `entry -
original_stop`. -/
theorem c2_claim_counterexample :
    cexSignalC2.status = .ACTIVE ∧
      cexSignalC2.breakeven_triggered = false ∧
      cexSignalC2.decision = .BUY ∧
      priceHalf cexSignalC2.symbol = some (1/2) ∧
      (1/2 : ℚ) < cexSignalC2.entry +
        |cexSignalC2.entry - cexSignalC2.original_stop| ∧
      (breakevenStep priceHalf 7 cexSignalC2).breakeven_triggered = true := by
  refine ⟨rfl, rfl, rfl, rfl, ?_, ?_⟩
  · norm_num [cexSignalC2, save_signal_to_db]
  · norm_num [breakevenStep, breakevenEligible, cexSignalC2,
      save_signal_to_db, priceHalf, update_stop_loss_to_breakeven]

theorem outcomeStep_eval (price : PriceOracle) (now : ℕ) (s : Signal)
    (p : ℚ) (hst : s.status = .ACTIVE) (hp : price s.symbol = some p)
    (hd : s.decision = .BUY ∨ s.decision = .SELL) :
    outcomeStep price now s =
      (match actualExit s p with
        | none => s
        | some (r, xp) => closeWith now s r xp (hypExit s p)) := by
  unfold outcomeStep
  rw [hp, if_pos (show s.status = .ACTIVE ∧
    (s.decision = .BUY ∨ s.decision = .SELL) from ⟨hst, hd⟩)]

/-- C1 (amended): for every ACTIVE BUY signal with an available price `p`:
if `p ≥ target` it closes WIN at target; otherwise if `p ≤ current_stop`
(the effective stop) it closes BREAKEVEN when that stop equals entry and
LOSS otherwise, at that stop; inequalities mirrored for SELL.  The
hypothetical leg applies the WIN/stop rules against `original_stop`, except
that its stop hit is always LOSS (never BREAKEVEN, even when
`original_stop = entry`); when neither hypothetical condition fires its
result is null, never LOSS. -/
theorem c1_outcome_rules (price : PriceOracle) (now : ℕ) (s : Signal)
    (p : ℚ) (hst : s.status = .ACTIVE) (hp : price s.symbol = some p) :
    (s.decision = .BUY →
      ((s.target ≤ p →
          (outcomeStep price now s).status = .CLOSED ∧
          (outcomeStep price now s).result = some .WIN ∧
          (outcomeStep price now s).exit_price = some s.target) ∧
        (p < s.target → p ≤ effSl s →
          (outcomeStep price now s).status = .CLOSED ∧
          (outcomeStep price now s).result =
            some (if effSl s = s.entry then .BREAKEVEN else .LOSS) ∧
          (outcomeStep price now s).exit_price = some (effSl s)) ∧
        ((outcomeStep price now s).status = .CLOSED →
          (outcomeStep price now s).hyp_result =
            (if s.target ≤ p then some TradeResult.WIN
             else if p ≤ s.original_stop then some TradeResult.LOSS
             else none)))) ∧
    (s.decision = .SELL →
      ((p ≤ s.target →
          (outcomeStep price now s).status = .CLOSED ∧
          (outcomeStep price now s).result = some .WIN ∧
          (outcomeStep price now s).exit_price = some s.target) ∧
        (s.target < p → effSl s ≤ p →
          (outcomeStep price now s).status = .CLOSED ∧
          (outcomeStep price now s).result =
            some (if effSl s = s.entry then .BREAKEVEN else .LOSS) ∧
          (outcomeStep price now s).exit_price = some (effSl s)) ∧
        ((outcomeStep price now s).status = .CLOSED →
          (outcomeStep price now s).hyp_result =
            (if p ≤ s.target then some TradeResult.WIN
             else if s.original_stop ≤ p then some TradeResult.LOSS
             else none)))) := by
  constructor
  · intro hd
    have heval := outcomeStep_eval price now s p hst hp (Or.inl hd)
    rcases le_or_lt s.target p with hT | hT
    · have hA : actualExit s p = some (.WIN, s.target) := by
        simp [actualExit, hd, if_pos hT]
      have hH : hypExit s p = some (.WIN, s.target) := by
        simp [hypExit, hd, if_pos hT]
      rw [heval, hA]
      refine ⟨fun _ => ⟨rfl, rfl, rfl⟩, fun h2 _ => absurd hT (by linarith),
        fun _ => ?_⟩
      simp [closeWith, hH, if_pos hT]
    · rcases le_or_lt p (effSl s) with hS | hS
      · have hA : actualExit s p = some
            ((if effSl s = s.entry then .BREAKEVEN else .LOSS), effSl s) := by
          simp [actualExit, hd, if_neg (not_le.mpr hT), if_pos hS]
        rw [heval, hA]
        refine ⟨fun hT2 => absurd hT2 (not_le.mpr hT),
          fun _ _ => ⟨rfl, rfl, rfl⟩, fun _ => ?_⟩
        rcases le_or_lt p s.original_stop with hO | hO
        · have hH : hypExit s p = some (.LOSS, s.original_stop) := by
            simp [hypExit, hd, if_neg (not_le.mpr hT), if_pos hO]
          simp [closeWith, hH, if_neg (not_le.mpr hT), if_pos hO]
        · have hH : hypExit s p = none := by
            simp [hypExit, hd, if_neg (not_le.mpr hT),
              if_neg (not_le.mpr hO)]
          simp [closeWith, hH, if_neg (not_le.mpr hT),
            if_neg (not_le.mpr hO)]
      · have hA : actualExit s p = none := by
          simp [actualExit, hd, if_neg (not_le.mpr hT),
            if_neg (not_le.mpr hS)]
        rw [heval, hA]
        refine ⟨fun hT2 => absurd hT2 (not_le.mpr hT),
          fun _ hS2 => absurd hS2 (not_le.mpr hS), fun hcl => ?_⟩
        rw [hst] at hcl
        exact absurd hcl (by simp)
  · intro hd
    have heval := outcomeStep_eval price now s p hst hp (Or.inr hd)
    rcases le_or_lt p s.target with hT | hT
    · have hA : actualExit s p = some (.WIN, s.target) := by
        simp [actualExit, hd, if_pos hT]
      have hH : hypExit s p = some (.WIN, s.target) := by
        simp [hypExit, hd, if_pos hT]
      rw [heval, hA]
      refine ⟨fun _ => ⟨rfl, rfl, rfl⟩, fun h2 _ => absurd hT (by linarith),
        fun _ => ?_⟩
      simp [closeWith, hH, if_pos hT]
    · rcases le_or_lt (effSl s) p with hS | hS
      · have hA : actualExit s p = some
            ((if effSl s = s.entry then .BREAKEVEN else .LOSS), effSl s) := by
          simp [actualExit, hd, if_neg (not_le.mpr hT), if_pos hS]
        rw [heval, hA]
        refine ⟨fun hT2 => absurd hT2 (not_le.mpr hT),
          fun _ _ => ⟨rfl, rfl, rfl⟩, fun _ => ?_⟩
        rcases le_or_lt s.original_stop p with hO | hO
        · have hH : hypExit s p = some (.LOSS, s.original_stop) := by
            simp [hypExit, hd, if_neg (not_le.mpr hT), if_pos hO]
          simp [closeWith, hH, if_neg (not_le.mpr hT), if_pos hO]
        · have hH : hypExit s p = none := by
            simp [hypExit, hd, if_neg (not_le.mpr hT),
              if_neg (not_le.mpr hO)]
          simp [closeWith, hH, if_neg (not_le.mpr hT),
            if_neg (not_le.mpr hO)]
      · have hA : actualExit s p = none := by
          simp [actualExit, hd, if_neg (not_le.mpr hT),
            if_neg (not_le.mpr hS)]
        rw [heval, hA]
        refine ⟨fun hT2 => absurd hT2 (not_le.mpr hT),
          fun _ hS2 => absurd hS2 (not_le.mpr hS), fun hcl => ?_⟩
        rw [hst] at hcl
        exact absurd hcl (by simp)

/-- Witness for C1: the concrete BUY signal at entry 1 with target 6/5
closes WIN when the price is 5/4. -/
theorem c1_outcome_rules_holds :
    (outcomeStep priceHigh 2 witSignalC1).result = some .WIN := by
  have h := c1_outcome_rules priceHigh 2 witSignalC1 (5/4) rfl rfl
  exact ((h.1 rfl).1 (by norm_num [witSignalC1, save_signal_to_db])).2.1

/-- Counterexample to C1 as stated: on a BUY whose original stop equals its
entry (price 1/2 below both), the claim's "same rules against
original_stop" demand a hypothetical BREAKEVEN, but the code records a
hypothetical LOSS. -/
theorem c1_claim_counterexample :
    cexSignalC1.status = .ACTIVE ∧
      cexSignalC1.decision = .BUY ∧
      priceHalf cexSignalC1.symbol = some (1/2) ∧
      claimHypExitBuyC1 cexSignalC1.entry cexSignalC1.original_stop
        cexSignalC1.target (1/2) = some (.BREAKEVEN, 1) ∧
      (outcomeStep priceHalf 3 cexSignalC1).status = .CLOSED ∧
      (outcomeStep priceHalf 3 cexSignalC1).hyp_result = some .LOSS := by
  refine ⟨rfl, rfl, rfl, ?_, ?_, ?_⟩
  · norm_num [claimHypExitBuyC1, cexSignalC1, save_signal_to_db]
  · norm_num [outcomeStep, actualExit, hypExit, closeWith, effSl,
      cexSignalC1, save_signal_to_db, priceHalf]
  · norm_num [outcomeStep, actualExit, hypExit, closeWith, effSl,
      cexSignalC1, save_signal_to_db, priceHalf]

/-- C4: the daily-win-cap gate rejects iff today's net wins reach 3 and no
risky (active, pre-breakeven) signal remains; when the cap is reached but a
risky signal is open, admission still proceeds. -/
theorem c4_daily_cap_gate (db : List Signal) (ts te : ℕ) :
    (is_daily_analysis_allowed db ts te = false ↔
      (3 ≤ get_daily_net_wins db ts te ∧ get_risky_active_trades db = 0)) ∧
    (3 ≤ get_daily_net_wins db ts te → 0 < get_risky_active_trades db →
      is_daily_analysis_allowed db ts te = true) := by
  constructor
  · unfold is_daily_analysis_allowed
    split_ifs with h1 h2
    · simp [h1]
    · simp [h1]
    · simp [h1]
  · intro h1 h2
    unfold is_daily_analysis_allowed
    have hne : ¬ (3 ≤ get_daily_net_wins db ts te ∧
        get_risky_active_trades db = 0) := by
      intro hx
      omega
    rw [if_neg hne, if_pos ⟨h1, h2⟩]

/-- Witness for C4: three wins today plus one risky active signal still
admit analysis. -/
theorem c4_daily_cap_gate_holds :
    is_daily_analysis_allowed dbC4 0 10 = true := by
  have h := c4_daily_cap_gate dbC4 0 10
  exact h.2 (by decide) (by decide)

/-- C5 (amended): a `range_edge_reject` trigger with an available price is
met iff the price is within the 0.5-pip slop of the level AND the
direction is `bullish` or `bearish`; for any other direction (such as
`above` or `below`) the condition is never met. -/
theorem c5_range_edge (t : TriggerDef) (symbol : String) (p : ℚ)
    (ht : t.ttype = "range_edge_reject") :
    ((t.direction = "bullish" ∨ t.direction = "bearish") →
      (eval_trigger t symbol (some p) = true ↔
        |p - t.level| ≤ 1/2 / (get_pip_multiplier symbol : ℚ))) ∧
    (t.direction ≠ "bullish" → t.direction ≠ "bearish" →
      eval_trigger t symbol (some p) = false) := by
  constructor
  · rintro (hd | hd) <;> simp [eval_trigger, ht, hd]
  · intro h1 h2
    simp [eval_trigger, ht, h1, h2]

/-- Witness for C5: a bullish range-edge trigger at level 1 fires when the
price is exactly 1. -/
theorem c5_range_edge_holds :
    eval_trigger witTriggerC5 "EURUSD" (some 1) = true := by
  have h := c5_range_edge witTriggerC5 "EURUSD" 1 rfl
  refine (h.1 (Or.inl rfl)).mpr ?_
  have hm : get_pip_multiplier "EURUSD" = 10000 := by decide
  rw [show witTriggerC5.level = 1 from rfl, hm]
  norm_num

/-- Counterexample to C5 as stated: with direction `above` the price sits
exactly on the level (well within slop) yet the trigger is not met — the
code only fires `range_edge_reject` for bullish/bearish directions. -/
theorem c5_claim_counterexample :
    cexTriggerC5.ttype = "range_edge_reject" ∧
      cexTriggerC5.direction = "above" ∧
      |(1 : ℚ) - cexTriggerC5.level| ≤
        1/2 / (get_pip_multiplier "EURUSD" : ℚ) ∧
      eval_trigger cexTriggerC5 "EURUSD" (some 1) = false := by
  refine ⟨rfl, rfl, ?_, ?_⟩
  · have hm : get_pip_multiplier "EURUSD" = 10000 := by decide
    rw [show cexTriggerC5.level = 1 from rfl, hm]
    norm_num
  · decide

/-- C6 (amended): when a pending trigger has not expired, the session and
news gates pass, the condition is met, and the re-analysis model call fails
(no parseable decision), the watcher does NOT leave the trigger PENDING: it
marks it CONSUMED with result `'ERROR'`. -/
theorem c6_model_failure (env : WatchEnv) (t : TriggerRow)
    (hexp : ¬ t.expiry_ts < env.now) (hvt : env.validTime = true)
    (hnw : env.newsWindow = false)
    (hmet : eval_trigger t.trigger t.symbol (env.price t.symbol) = true)
    (hfail : env.reanalysis t.symbol = none) :
    (processTrigger env t).status = .CONSUMED ∧
      (processTrigger env t).result = some "ERROR" := by
  unfold processTrigger
  rw [if_neg hexp, hvt, hnw, hmet, hfail]
  simp [mark_trigger_status]

/-- Witness for C6: the concrete pending EMA trigger with a failing model
call ends up CONSUMED. -/
theorem c6_model_failure_holds :
    (processTrigger envC6 rowC6).status = .CONSUMED := by
  have hm : get_pip_multiplier "EURUSD" = 10000 := by decide
  have e1 : ("ema_retouch" : String) ≠ "level_break" := by decide
  have e2 : ("ema_retouch" : String) ≠ "retest_hold" := by decide
  have e3 : ("ema_retouch" : String) ≠ "range_edge_reject" := by decide
  have hmet : eval_trigger rowC6.trigger rowC6.symbol
      (envC6.price rowC6.symbol) = true := by
    show eval_trigger rowC6.trigger "EURUSD" (some 1) = true
    norm_num [eval_trigger, rowC6, hm, e1, e2, e3]
  exact (c6_model_failure envC6 rowC6 (by decide) rfl rfl hmet rfl).1

/-- Counterexample to C6 as stated: the trigger's condition is met and the
model call fails, yet the trigger does not remain PENDING — it transitions
to CONSUMED. -/
theorem c6_claim_counterexample :
    rowC6.status = .PENDING ∧
      envC6.reanalysis rowC6.symbol = none ∧
      (processTrigger envC6 rowC6).status = .CONSUMED ∧
      (processTrigger envC6 rowC6).result = some "ERROR" ∧
      TriggerStatus.CONSUMED ≠ TriggerStatus.PENDING := by
  have hm : get_pip_multiplier "EURUSD" = 10000 := by decide
  have e1 : ("ema_retouch" : String) ≠ "level_break" := by decide
  have e2 : ("ema_retouch" : String) ≠ "retest_hold" := by decide
  have e3 : ("ema_retouch" : String) ≠ "range_edge_reject" := by decide
  have hmet : eval_trigger rowC6.trigger rowC6.symbol
      (envC6.price rowC6.symbol) = true := by
    show eval_trigger rowC6.trigger "EURUSD" (some 1) = true
    norm_num [eval_trigger, rowC6, hm, e1, e2, e3]
  have hproc : processTrigger envC6 rowC6 =
      mark_trigger_status 10 .CONSUMED (some "ERROR") (some "met") rowC6 := by
    unfold processTrigger
    rw [if_neg (by decide : ¬ rowC6.expiry_ts < envC6.now)]
    rw [show envC6.validTime = true from rfl]
    rw [show envC6.newsWindow = false from rfl]
    rw [hmet]
    rw [show envC6.reanalysis rowC6.symbol = none from rfl]
    rfl
  refine ⟨rfl, rfl, ?_, ?_, by decide⟩
  · rw [hproc]
    rfl
  · rw [hproc]
    rfl

/-- C10: a saved trigger's absolute expiry equals creation time plus
minutes-per-bar times the bar count, where an omitted `expiry_bars`
defaults to 8 and a timeframe outside M15/M30/H1/H4 maps to 15 minutes per
bar; and a valid WAIT analysis appends exactly this row after superseding. -/
theorem c10_trigger_expiry (now newId : ℕ) (symbol : String) (a : Analysis)
    (store : List TriggerRow) (nt : NextTriggerData)
    (hW : a.decision = .WAIT) (hnt : a.next_trigger = some nt)
    (hv : ntValid nt = true) :
    (save_trigger now newId symbol a store =
      (store.map (supersedeRow symbol now)) ++
        [newTriggerRow now newId symbol nt]) ∧
    (∀ b : ℕ, nt.expiry_bars = some b →
      (newTriggerRow now newId symbol nt).expiry_ts =
        now + tf_minutes (nt.timeframe.getD "M15") * b) ∧
    (nt.expiry_bars = none →
      (newTriggerRow now newId symbol nt).expiry_ts =
        now + tf_minutes (nt.timeframe.getD "M15") * 8) ∧
    (∀ tf : String, nt.timeframe = some tf →
      tf ≠ "M15" → tf ≠ "M30" → tf ≠ "H1" → tf ≠ "H4" →
      (newTriggerRow now newId symbol nt).expiry_ts =
        now + 15 * nt.expiry_bars.getD 8) := by
  refine ⟨?_, ?_, ?_, ?_⟩
  · simp [save_trigger, hW, hnt, hv]
  · intro b hb
    simp [newTriggerRow, hb]
  · intro hb
    simp [newTriggerRow, hb]
  · intro tf htf h1 h2 h3 h4
    simp [newTriggerRow, htf, tf_minutes, h1, h2, h3, h4]

/-- Witness for C10: omitted expiry_bars and the unmapped timeframe `H2`
give an expiry 8 x 15 = 120 minutes after creation. -/
theorem c10_trigger_expiry_holds :
    TriggerRow.expiry_ts (newTriggerRow 0 7 "EURUSD"
      ⟨some "ema_retouch", some "H2", some 1, some "bullish", none⟩) = 120 := by
  have h := c10_trigger_expiry 0 7 "EURUSD" analysisC10 []
    ⟨some "ema_retouch", some "H2", some 1, some "bullish", none⟩
    rfl rfl (by decide)
  have h2 := h.2.2.1 rfl
  rw [h2]
  decide

theorem supersedeRow_nonpending (symbol : String) (now : ℕ) (t : TriggerRow)
    (h : t.status ≠ .PENDING) : supersedeRow symbol now t = t := by
  unfold supersedeRow
  rw [if_neg]
  intro hx
  exact h hx.2

theorem supersedeRow_status_change (symbol : String) (now : ℕ)
    (t : TriggerRow) (h : (supersedeRow symbol now t).status ≠ t.status) :
    t.status = .PENDING ∧ (supersedeRow symbol now t).status ≠ .PENDING := by
  unfold supersedeRow at h ⊢
  split_ifs at h ⊢ with hc
  · exact ⟨hc.2, by simp⟩
  · exact absurd rfl h

theorem clearRow_nonpending (symbol : String) (now : ℕ) (reason : String)
    (t : TriggerRow) (h : t.status ≠ .PENDING) :
    clearRow symbol now reason t = t := by
  unfold clearRow
  rw [if_neg]
  intro hx
  exact h hx.2

theorem clearRow_status_change (symbol : String) (now : ℕ) (reason : String)
    (t : TriggerRow)
    (h : (clearRow symbol now reason t).status ≠ t.status) :
    t.status = .PENDING ∧
      (clearRow symbol now reason t).status ≠ .PENDING := by
  unfold clearRow at h ⊢
  split_ifs at h ⊢ with hc
  · exact ⟨hc.2, by simp⟩
  · exact absurd rfl h

theorem processTrigger_symbol (env : WatchEnv) (t : TriggerRow) :
    (processTrigger env t).symbol = t.symbol := by
  unfold processTrigger mark_trigger_status
  split_ifs <;> try rfl
  cases env.reanalysis t.symbol <;> rfl

theorem processTrigger_status (env : WatchEnv) (t : TriggerRow) :
    (processTrigger env t).status = t.status ∨
      (processTrigger env t).status = .EXPIRED ∨
      (processTrigger env t).status = .CONSUMED := by
  unfold processTrigger mark_trigger_status
  split_ifs
  · right; left; rfl
  · left; rfl
  · left; rfl
  · left; rfl
  · cases env.reanalysis t.symbol
    · right; right; rfl
    · right; right; rfl

theorem pendingCount_watch_le (env : WatchEnv) (store : List TriggerRow)
    (sym : String) :
    pendingCount (watchCycle env store) sym ≤ pendingCount store sym := by
  unfold watchCycle pendingCount
  rw [List.countP_map]
  apply List.countP_mono_left
  intro t _ h
  simp only [Function.comp] at h
  unfold watchRow at h
  by_cases hp : t.status = .PENDING
  · rw [if_pos hp] at h
    unfold pendPred at h ⊢
    rw [decide_eq_true_eq] at h
    rw [decide_eq_true_eq]
    refine ⟨?_, hp⟩
    rw [← processTrigger_symbol env t]
    exact h.1
  · rw [if_neg hp] at h
    exact h

theorem pendingCount_clear_le (now : ℕ) (symbol reason : String)
    (store : List TriggerRow) (sym : String) :
    pendingCount (clear_pending_triggers now symbol reason store) sym ≤
      pendingCount store sym := by
  unfold clear_pending_triggers pendingCount
  rw [List.countP_map]
  apply List.countP_mono_left
  intro t _ h
  simp only [Function.comp] at h
  unfold clearRow at h
  split_ifs at h with hc
  · unfold pendPred at h
    rw [decide_eq_true_eq] at h
    exact absurd h.2 (by simp)
  · exact h

theorem countP_supersede_self (symbol : String) (now : ℕ)
    (store : List TriggerRow) :
    (store.map (supersedeRow symbol now)).countP (pendPred symbol) = 0 := by
  rw [List.countP_map, List.countP_eq_zero]
  intro t _
  simp only [Function.comp]
  unfold supersedeRow pendPred
  split_ifs with hc
  · simp
  · simpa using hc

theorem countP_supersede_other (symbol : String) (now : ℕ)
    (store : List TriggerRow) (sym : String) (hne : sym ≠ symbol) :
    (store.map (supersedeRow symbol now)).countP (pendPred sym) =
      store.countP (pendPred sym) := by
  rw [List.countP_map]
  apply List.countP_congr
  intro t _
  simp only [Function.comp]
  unfold supersedeRow pendPred
  split_ifs with hc
  · have hts : ¬ t.symbol = sym := by
      intro h
      exact hne (by rw [← h]; exact hc.1)
    simp [hts]
  · exact Iff.rfl

theorem applyOp_pending_inv (op : StoreOp) (store : List TriggerRow)
    (h : ∀ sym, pendingCount store sym ≤ 1) :
    ∀ sym, pendingCount (applyOp op store) sym ≤ 1 := by
  intro sym
  cases op with
  | save now newId symbol a =>
    show pendingCount (save_trigger now newId symbol a store) sym ≤ 1
    unfold save_trigger
    split_ifs with hW
    · rcases hnt : a.next_trigger with _ | nt
      · exact h sym
      · show pendingCount (if ntValid nt = true
            then List.map (supersedeRow symbol now) store ++
              [newTriggerRow now newId symbol nt]
            else store) sym ≤ 1
        split_ifs with hv
        · unfold pendingCount
          rw [List.countP_append]
          by_cases hsym : sym = symbol
          · subst hsym
            rw [countP_supersede_self]
            have hone : List.countP (pendPred sym)
                [newTriggerRow now newId sym nt] ≤ 1 := by
              simp only [List.countP_cons, List.countP_nil, pendPred,
                decide_eq_true_eq]
              split_ifs <;> omega
            omega
          · rw [countP_supersede_other symbol now store sym hsym]
            have hzero : List.countP (pendPred sym)
                [newTriggerRow now newId symbol nt] = 0 := by
              simp [List.countP_cons, pendPred, newTriggerRow]
              intro hx
              exact absurd hx.symm hsym
            have := h sym
            unfold pendingCount at this
            omega
        · exact h sym
    · exact h sym
  | clear now symbol reason =>
    exact le_trans (pendingCount_clear_le now symbol reason store sym) (h sym)
  | watch env =>
    exact le_trans (pendingCount_watch_le env store sym) (h sym)

theorem runOps_pending_inv (ops : List StoreOp) (store : List TriggerRow)
    (h : ∀ sym, pendingCount store sym ≤ 1) :
    ∀ sym, pendingCount (runOps ops store) sym ≤ 1 := by
  induction ops generalizing store with
  | nil => exact h
  | cons op rest ih =>
    have hstep : runOps (op :: rest) store =
        runOps rest (applyOp op store) := rfl
    rw [hstep]
    exact ih (applyOp op store) (applyOp_pending_inv op store h)

theorem applyOp_pointwise (op : StoreOp) (store : List TriggerRow) :
    ∃ f : TriggerRow → TriggerRow,
      (∀ (i : ℕ), i < store.length →
        (applyOp op store)[i]? = (store[i]?).map f) ∧
      (∀ t, t.status ≠ .PENDING → f t = t) ∧
      (∀ t, (f t).status ≠ t.status →
        t.status = .PENDING ∧ (f t).status ≠ .PENDING) := by
  cases op with
  | save now newId symbol a =>
    by_cases hW : a.decision = .WAIT
    · rcases hnt : a.next_trigger with _ | nt
      · refine ⟨id, ?_, fun t _ => rfl, fun t ht => absurd rfl ht⟩
        intro i hi
        show (save_trigger now newId symbol a store)[i]? = _
        unfold save_trigger
        rw [if_pos hW, hnt]
        simp
      · by_cases hv : ntValid nt = true
        · refine ⟨supersedeRow symbol now, ?_,
            supersedeRow_nonpending symbol now,
            supersedeRow_status_change symbol now⟩
          intro i hi
          show (save_trigger now newId symbol a store)[i]? = _
          unfold save_trigger
          rw [if_pos hW, hnt]
          simp only [if_pos hv]
          rw [List.getElem?_append_left (by simpa using hi),
            List.getElem?_map]
        · refine ⟨id, ?_, fun t _ => rfl, fun t ht => absurd rfl ht⟩
          intro i hi
          show (save_trigger now newId symbol a store)[i]? = _
          unfold save_trigger
          rw [if_pos hW, hnt]
          simp only [if_neg hv]
          simp
    · refine ⟨id, ?_, fun t _ => rfl, fun t ht => absurd rfl ht⟩
      intro i hi
      show (save_trigger now newId symbol a store)[i]? = _
      unfold save_trigger
      rw [if_neg hW]
      simp
  | clear now symbol reason =>
    refine ⟨clearRow symbol now reason, ?_,
      clearRow_nonpending symbol now reason,
      clearRow_status_change symbol now reason⟩
    intro i hi
    show (clear_pending_triggers now symbol reason store)[i]? = _
    unfold clear_pending_triggers
    rw [List.getElem?_map]
  | watch env =>
    refine ⟨watchRow env, ?_, ?_, ?_⟩
    · intro i hi
      show (watchCycle env store)[i]? = _
      unfold watchCycle
      rw [List.getElem?_map]
    · intro t ht
      unfold watchRow
      exact if_neg ht
    · intro t ht
      unfold watchRow at ht ⊢
      by_cases hp : t.status = .PENDING
      · rw [if_pos hp] at ht ⊢
        refine ⟨hp, ?_⟩
        rcases processTrigger_status env t with h1 | h1 | h1
        · exact absurd h1 ht
        · rw [h1]; simp
        · rw [h1]; simp
      · rw [if_neg hp] at ht
        exact absurd rfl ht

/-- C8: starting from an empty trigger store, any sequence of save / clear
/ watcher operations maintains at most one PENDING trigger per symbol; an
operation never modifies a row that is out of PENDING; a row's status can
only change from PENDING to a non-PENDING (terminal) status; and a valid
save supersedes (does not delete) the symbol's PENDING rows before
appending the new PENDING row. -/
theorem c8_trigger_invariants (ops : List StoreOp) :
    (∀ sym, pendingCount (runOps ops []) sym ≤ 1) ∧
    (∀ (op : StoreOp) (store : List TriggerRow) (i : ℕ),
      i < store.length →
      ∀ t1 : TriggerRow, store[i]? = some t1 → t1.status ≠ .PENDING →
      (applyOp op store)[i]? = some t1) ∧
    (∀ (op : StoreOp) (store : List TriggerRow) (i : ℕ),
      i < store.length →
      ∀ t1 t2 : TriggerRow, store[i]? = some t1 →
      (applyOp op store)[i]? = some t2 → t2.status ≠ t1.status →
      t1.status = .PENDING ∧ t2.status ≠ .PENDING) ∧
    (∀ (now newId : ℕ) (symbol : String) (a : Analysis)
      (store : List TriggerRow) (nt : NextTriggerData),
      a.decision = .WAIT → a.next_trigger = some nt → ntValid nt = true →
      save_trigger now newId symbol a store =
        (store.map (supersedeRow symbol now)) ++
          [newTriggerRow now newId symbol nt] ∧
      (newTriggerRow now newId symbol nt).status = .PENDING ∧
      (∀ t : TriggerRow, t.symbol = symbol → t.status = .PENDING →
        (supersedeRow symbol now t).status = .SUPERSEDED)) := by
  refine ⟨?_, ?_, ?_, ?_⟩
  · exact runOps_pending_inv ops [] (fun sym => by simp [pendingCount])
  · intro op store i hi t1 ht1 hnp
    obtain ⟨f, hpt, hid, _⟩ := applyOp_pointwise op store
    rw [hpt i hi, ht1]
    simp [hid t1 hnp]
  · intro op store i hi t1 t2 ht1 ht2 hne
    obtain ⟨f, hpt, hid, hchg⟩ := applyOp_pointwise op store
    rw [hpt i hi, ht1] at ht2
    have h3 : some (f t1) = some t2 := ht2
    have h4 : f t1 = t2 := by injection h3
    subst h4
    exact hchg t1 hne
  · intro now newId symbol a store nt hW hnt hv
    refine ⟨?_, rfl, ?_⟩
    · unfold save_trigger
      rw [if_pos hW, hnt]
      show (if ntValid nt = true
          then List.map (supersedeRow symbol now) store ++
            [newTriggerRow now newId symbol nt]
          else store) = _
      rw [if_pos hv]
    · intro t h1 h2
      unfold supersedeRow
      rw [if_pos ⟨h1, h2⟩]

/-- Witness for C8: two consecutive saves for the same symbol leave at most
one PENDING trigger; a clear leaves a CONSUMED row untouched; a valid save
is exactly supersede-then-append, and a matching PENDING row becomes
SUPERSEDED. -/
theorem c8_trigger_invariants_holds :
    pendingCount (runOps opsC8 []) "EURUSD" ≤ 1 ∧
      (applyOp (.clear 9 "EURUSD" "override") [rowDoneC8])[0]? =
        some rowDoneC8 ∧
      save_trigger 3 2 "EURUSD" analysisC8 [rowC6] =
        (List.map (supersedeRow "EURUSD" 3) [rowC6]) ++
          [newTriggerRow 3 2 "EURUSD" ntC8] ∧
      (supersedeRow "EURUSD" 3 rowC6).status = .SUPERSEDED := by
  have h := c8_trigger_invariants opsC8
  refine ⟨h.1 "EURUSD", ?_, ?_, ?_⟩
  · exact h.2.1 (.clear 9 "EURUSD" "override") [rowDoneC8] 0 (by decide)
      rowDoneC8 rfl (by decide)
  · exact (h.2.2.2 3 2 "EURUSD" analysisC8 [rowC6] ntC8 rfl rfl
      (by decide)).1
  · exact (h.2.2.2 3 2 "EURUSD" analysisC8 [rowC6] ntC8 rfl rfl
      (by decide)).2.2 rowC6 rfl rfl

end AITrader
